import Mathlib

/-!
Shallow embedding of the Zajal interpreter lifecycle
(`src/ZajalInterpreter.cc`) and its GLFW frontend.

The interpreter drives a user script through setup/update/draw/exit
phases, watches the script files for edits, and captures script-level
errors into an `INTERPRETER_ERROR` state instead of crashing.

Modelling conventions, matching the C++ source:
* Ruby-engine calls (`zj_safe_proc_call`, `zj_safe_funcall`,
  `live_load`, hook arrays) are external to `src/`.  Modelled from the
  spec: the engine's `invoke` returns a per-call `failed` flag (the
  C++ global `ruby_error` holds the flag of the most recent call), so
  every registered hook or entry point is represented by the boolean
  saying whether invoking it reports failure, and hook arrays by lists
  of such booleans in registration order.
* `::exit(n)` and `rb_bug` terminate the process; functions that can
  reach them return `Except Fatal _`.
* File-system effects (`stat`, `fopen`/`fread`, `realpath`/`dirname`,
  `zj_to_data_path`) are inputs: modification times come from a
  `String → Option Int` map (`none` = `stat` fails) and the script
  file's content, resolved directory and resolved watch path are
  passed in.
-/

/-- The interpreter states, from `InterpreterState` (NO_SKETCH / RUNNING /
ERROR). -/
inductive InterpreterState
  | NoSketch
  | Running
  | Error
  deriving Repr, DecidableEq

/-- Lifecycle phases. -/
inductive Phase
  | setup
  | update
  | draw
  | exitPhase
  deriving Repr, DecidableEq

/-- Ways the process terminates abnormally: `::exit(n)` with a status
code, or `rb_bug` (abort). -/
inductive Fatal
  | exitCode (n : Nat)
  | bug
  deriving Repr, DecidableEq

/-- Observable engine-call events emitted while a phase or reload runs,
in the order the C++ code performs them. -/
inductive Ev
  | defaultsCall
  | prehookCall (ph : Phase) (i : Nat)
  | mainCall (ph : Phase)
  | posthookCall (ph : Phase) (i : Nat)
  | fakeMousePress (x y : Int) (btn : String)
  | processErrorCall
  | grabScreen
  | inPlaceLoad (path : String)
  | liveLoad (content : String) (reset : Bool)
  deriving Repr, DecidableEq

/-- The interpreter's mutable fields (members of `ZajalInterpreter`)
together with the engine-side globals it reads and writes:
`watchedFiles` models `zj_mZajal.watched_files`, `loadPath` the Ruby
`$:` array, `dataPath` `zj_mApp.data_path`. -/
structure ZState where
  state : InterpreterState
  keyIsPressed : Bool
  mouseIsPressed : Bool
  scriptModifiedTime : Int
  nextUpdate : Int
  lastMouseX : Int
  lastMouseY : Int
  lastMouseButton : String
  scriptName : Option String
  watchedFiles : List String
  loadPath : List String
  dataPath : Option String
  deriving Repr, DecidableEq

/-- Failure behaviour of every engine callable the interpreter invokes:
each boolean says whether that invocation reports an error, each list
is a registered hook array in registration order. -/
structure Hooks where
  defaultsProcFails : Bool
  updatePrehooks : List Bool
  updateProcFails : Bool
  updatePosthooks : List Bool
  drawPrehooks : List Bool
  drawProcFails : Bool
  drawPosthooks : List Bool
  exitPrehooks : List Bool
  exitProcFails : Bool
  exitPosthooks : List Bool
  setupProcFails : Bool
  mousePressedProcFails : Bool
  mouseDownProcFails : Bool
  mouseUpProcFails : Bool
  mouseMovedProcFails : Bool
  mouseDraggedProcFails : Bool
  keyEventNewFails : Bool
  keyDownProcFails : Bool
  keyPressedProcFails : Bool
  keyUpProcFails : Bool
  processErrorFails : Bool
  evalErr : Bool
  deriving Repr, DecidableEq

/-- `ZajalInterpreter::ZajalInterpreter()`: flags cleared, state
NO_SKETCH, modification time 0, no script name, watch counter set to
`SCRIPT_UPDATE_FREQUENCY` (the parameter `K`). -/
def initialZState (K : Int) : ZState where
  state := InterpreterState.NoSketch
  keyIsPressed := false
  mouseIsPressed := false
  scriptModifiedTime := 0
  nextUpdate := K
  lastMouseX := 0
  lastMouseY := 0
  lastMouseButton := ""
  scriptName := none
  watchedFiles := []
  loadPath := []
  dataPath := none

/-- `zj_button_to_symbol`: 0/1/2 become the symbols `left` / `middle` /
`right`; any other button reaches `rb_bug`, which aborts the process,
so the function never returns a value there (`none`). -/
def zj_button_to_symbol (button : Int) : Option String :=
  if button = 0 then some "left"
  else if button = 1 then some "middle"
  else if button = 2 then some "right"
  else none

/-- `ZajalInterpreter::reloadScript(forced, filename)`.  The file's
content has already been read (`fopen`/`fread`); `evalErr` is whether
the final `live_load` engine call reports an error.  Returns the new
state and the engine-call trace: while RUNNING the screen is grabbed;
when `forced` (always forced while in ERROR) an empty `live_load` with
reset flag true first wipes script-defined state; then the content is
evaluated; finally `state = ruby_error ? ERROR : RUNNING`. -/
def reloadScript (z : ZState) (forcedArg : Bool) (content : String)
    (evalErr : Bool) : ZState × List Ev :=
  let forced := if z.state = InterpreterState.Error then true else forcedArg
  let grabEvs := if z.state = InterpreterState.Running then [Ev.grabScreen] else []
  let resetEvs := if forced then [Ev.liveLoad "" true] else []
  ({ z with state := if evalErr then InterpreterState.Error else InterpreterState.Running },
    grabEvs ++ resetEvs ++ [Ev.liveLoad content forced])

/-- `ZajalInterpreter::update()`.  Only while RUNNING: the defaults
proc and the update prehooks are invoked (their failures are not
checked), then the user update proc; if it reports an error the state
becomes ERROR and the function returns at once, skipping the update
posthooks; otherwise every update posthook is invoked (their failures
are not checked either). -/
def zjUpdate (z : ZState) (h : Hooks) : ZState × List Ev :=
  if z.state = InterpreterState.Running then
    let preEvs := (List.range h.updatePrehooks.length).map (Ev.prehookCall Phase.update)
    if h.updateProcFails then
      ({ z with state := InterpreterState.Error },
        Ev.defaultsCall :: preEvs ++ [Ev.mainCall Phase.update])
    else
      (z, Ev.defaultsCall :: preEvs ++ [Ev.mainCall Phase.update]
        ++ (List.range h.updatePosthooks.length).map (Ev.posthookCall Phase.update))
  else (z, [])

/-- The `INTERPRETER_RUNNING` case of `ZajalInterpreter::draw()`
(before the watch-counter tail): draw prehooks (failures unchecked),
the user draw proc (failure sets ERROR), then every draw posthook in
order, each failure setting ERROR; finally, if the mouse is held, the
mouse-pressed proc is re-invoked with the last known position and
button, and the `ruby_error` flag — from that call, or still from the
last posthook / draw proc when the mouse is not held — is checked once
more. -/
def drawRunningBranch (z : ZState) (h : Hooks) : ZState × List Ev :=
  let preEvs := (List.range h.drawPrehooks.length).map (Ev.prehookCall Phase.draw)
  let st1 := if h.drawProcFails then InterpreterState.Error else z.state
  let res2 := h.drawPosthooks.foldl
    (fun p f => (if f then InterpreterState.Error else p.1, f)) (st1, h.drawProcFails)
  let postEvs := (List.range h.drawPosthooks.length).map (Ev.posthookCall Phase.draw)
  let res3 :=
    if z.mouseIsPressed then
      ((res2.1, h.mousePressedProcFails),
        [Ev.fakeMousePress z.lastMouseX z.lastMouseY z.lastMouseButton])
    else (res2, [])
  let st4 := if res3.1.2 then InterpreterState.Error else res3.1.1
  ({ z with state := st4 },
    preEvs ++ [Ev.mainCall Phase.draw] ++ postEvs ++ res3.2)

/-- The `INTERPRETER_ERROR` case of `ZajalInterpreter::draw()`:
`process_error` is called (with a fallback stringification when it
itself fails), the overlay is drawn, and the defaults proc is invoked;
no interpreter field changes. -/
def drawErrorBranch (z : ZState) : ZState × List Ev :=
  (z, [Ev.processErrorCall, Ev.defaultsCall])

/-- One iteration of the loop in
`ZajalInterpreter::updateCurrentScript()` for watched file number
`idx` holding path `path`: `stat` failure is fatal (`::exit(1)`);
a modification time strictly newer than `scriptModifiedTime` advances
that timestamp, re-executes the file in place via `load` when
`idx > 0`, and reloads the primary script; otherwise nothing
happens. -/
def watchStep (z : ZState) (idx : Nat) (path : String) (mtime : Option Int)
    (content : String) (evalErr : Bool) : Except Fatal (ZState × List Ev) :=
  match mtime with
  | none => Except.error (Fatal.exitCode 1)
  | some t =>
    if t > z.scriptModifiedTime then
      let z1 := { z with scriptModifiedTime := t }
      let loadEvs := if idx > 0 then [Ev.inPlaceLoad path] else []
      let r := reloadScript z1 false content evalErr
      Except.ok (r.1, loadEvs ++ r.2)
    else
      Except.ok (z, [])

/-- The loop of `ZajalInterpreter::updateCurrentScript()` over the
watched-files array (read once at entry), threading the interpreter
state through the per-file steps. -/
def watchLoop (z : ZState) (files : List String) (idx : Nat)
    (fs : String → Option Int) (content : String) (evalErr : Bool) :
    Except Fatal (ZState × List Ev) :=
  match files with
  | [] => Except.ok (z, [])
  | p :: rest =>
    match watchStep z idx p (fs p) content evalErr with
    | Except.error e => Except.error e
    | Except.ok (z1, evs1) =>
      match watchLoop z1 rest (idx + 1) fs content evalErr with
      | Except.error e => Except.error e
      | Except.ok (z2, evs2) => Except.ok (z2, evs1 ++ evs2)

/-- `ZajalInterpreter::updateCurrentScript()`: iterate the watched
files, then reset the watch counter `nextUpdate` to
`SCRIPT_UPDATE_FREQUENCY` (`K`). -/
def updateCurrentScript (K : Int) (z : ZState) (fs : String → Option Int)
    (content : String) (evalErr : Bool) : Except Fatal (ZState × List Ev) :=
  match watchLoop z z.watchedFiles 0 fs content evalErr with
  | Except.error e => Except.error e
  | Except.ok (z1, evs) => Except.ok ({ z1 with nextUpdate := K }, evs)

/-- The `switch(state)` of `ZajalInterpreter::draw()` (no case for
NO_SKETCH, so nothing happens there). -/
def drawSwitch (z : ZState) (h : Hooks) : ZState × List Ev :=
  match z.state with
  | InterpreterState.Error => drawErrorBranch z
  | InterpreterState.Running => drawRunningBranch z h
  | InterpreterState.NoSketch => (z, [])

/-- `ZajalInterpreter::draw()`: the state switch, then
`if(nextUpdate-- == 0) updateCurrentScript();` — the counter is
post-decremented every draw call and the poll fires exactly when its
value before the decrement was zero, after which
`updateCurrentScript` resets it. -/
def zjDraw (K : Int) (z : ZState) (h : Hooks) (fs : String → Option Int)
    (content : String) : Except Fatal (ZState × List Ev) :=
  let b : ZState × List Ev := drawSwitch z h
  let z1 := { b.1 with nextUpdate := b.1.nextUpdate - 1 }
  if b.1.nextUpdate = 0 then
    match updateCurrentScript K z1 fs content h.evalErr with
    | Except.error e => Except.error e
    | Except.ok (z2, evs2) => Except.ok (z2, b.2 ++ evs2)
  else
    Except.ok (z1, b.2)

/-- Iterate `zjDraw` `n` times under a fixed environment, counting how
many of those draw calls fired the watch poll. -/
def drawSeq (K : Int) (z : ZState) (h : Hooks) (fs : String → Option Int)
    (content : String) : Nat → Except Fatal (ZState × Nat)
  | 0 => Except.ok (z, 0)
  | n + 1 =>
    match drawSeq K z h fs content n with
    | Except.error e => Except.error e
    | Except.ok (z1, c) =>
      match zjDraw K z1 h fs content with
      | Except.error e => Except.error e
      | Except.ok (z2, _) =>
        Except.ok (z2, c + (if z1.nextUpdate = 0 then 1 else 0))

/-- `ZajalInterpreter::exit()`: the exit prehooks and the user exit
proc run only while RUNNING (the proc's failure sets ERROR); the exit
posthook loop runs unconditionally afterwards, in every state, with no
error checks. -/
def zjExit (z : ZState) (h : Hooks) : ZState × List Ev :=
  let postEvs := (List.range h.exitPosthooks.length).map (Ev.posthookCall Phase.exitPhase)
  if z.state = InterpreterState.Running then
    let preEvs := (List.range h.exitPrehooks.length).map (Ev.prehookCall Phase.exitPhase)
    let st1 := if h.exitProcFails then InterpreterState.Error else z.state
    ({ z with state := st1 },
      preEvs ++ [Ev.mainCall Phase.exitPhase] ++ postEvs)
  else (z, postEvs)

/-- `ZajalInterpreter::setup()`: while RUNNING the user setup proc is
invoked and a failure sets ERROR. -/
def zjSetup (z : ZState) (h : Hooks) : ZState :=
  if z.state = InterpreterState.Running then
    { z with state := if h.setupProcFails then InterpreterState.Error else z.state }
  else z

/-- `ZajalInterpreter::mousePressed(x, y, button)`: only while
RUNNING, the last pointer fields are set (the button through
`zj_button_to_symbol`, which aborts on an unsupported button), the
mouse-down proc is invoked, `mouseIsPressed` is set to true, and a
reported failure sets ERROR. -/
def zjMousePressed (z : ZState) (x y button : Int) (h : Hooks) :
    Except Fatal ZState :=
  if z.state = InterpreterState.Running then
    match zj_button_to_symbol button with
    | none => Except.error Fatal.bug
    | some sym =>
      Except.ok { z with
        lastMouseX := x, lastMouseY := y, lastMouseButton := sym,
        mouseIsPressed := true,
        state := if h.mouseDownProcFails then InterpreterState.Error else z.state }
  else Except.ok z

/-- `ZajalInterpreter::mouseReleased(x, y, button)`: only while
RUNNING, the mouse-up proc is invoked (failure sets ERROR) and then
`mouseIsPressed` is cleared; in any other state nothing changes. -/
def zjMouseReleased (z : ZState) (x y button : Int) (h : Hooks) :
    Except Fatal ZState :=
  if z.state = InterpreterState.Running then
    match zj_button_to_symbol button with
    | none => Except.error Fatal.bug
    | some _ =>
      Except.ok { z with
        state := if h.mouseUpProcFails then InterpreterState.Error else z.state,
        mouseIsPressed := false }
  else Except.ok z

/-- `ZajalInterpreter::keyPressed(key)`: only while RUNNING.  The
`KeyEvent.new` call may fail (setting ERROR, but execution continues);
then either the key-pressed proc (when `keyIsPressed` already holds)
or the key-down proc runs, the latter also setting `keyIsPressed`;
the final `ruby_error` check reflects that proc call. -/
def zjKeyPressed (z : ZState) (h : Hooks) : ZState :=
  if z.state = InterpreterState.Running then
    let stA := if h.keyEventNewFails then InterpreterState.Error else z.state
    if z.keyIsPressed then
      { z with state := if h.keyPressedProcFails then InterpreterState.Error else stA }
    else
      { z with keyIsPressed := true,
               state := if h.keyDownProcFails then InterpreterState.Error else stA }
  else z

/-- `ZajalInterpreter::keyReleased(key)`: only while RUNNING.  The
`KeyEvent.new` call and the key-up proc each set ERROR on failure, and
`keyIsPressed` is cleared — but only inside the RUNNING branch; in any
other state the flag keeps its value. -/
def zjKeyReleased (z : ZState) (h : Hooks) : ZState :=
  if z.state = InterpreterState.Running then
    let stA := if h.keyEventNewFails then InterpreterState.Error else z.state
    { z with state := if h.keyUpProcFails then InterpreterState.Error else stA,
             keyIsPressed := false }
  else z

/-- Ruby `Array#uniq!` keeps the first occurrence of each element;
`seen` accumulates the elements already kept. -/
def rubyUniqAux (seen : List String) : List String → List String
  | [] => []
  | a :: l =>
    if a ∈ seen then rubyUniqAux seen l
    else a :: rubyUniqAux (a :: seen) l

/-- Ruby `Array#uniq!` on a string array. -/
def rubyUniq (l : List String) : List String := rubyUniqAux [] l

/-- `ZajalInterpreter::loadScript(fileName)`: the script name is
stored; an inaccessible file (`stat` fails) is fatal with `::exit(1)`;
otherwise the resolved containing directory (`dirname(realpath(...))`,
passed in as `scriptDirectory`) becomes the data path and is
prepended to the Ruby load path `$:`, which is then deduplicated with
`uniq!`; finally the resolved watch path (`zj_to_data_path(fileName)`,
passed in as `watchPath`) is prepended — unconditionally — to the
watched-files array. -/
def loadScript (z : ZState) (fileName : String) (accessible : Bool)
    (scriptDirectory : String) (watchPath : String) : Except Fatal ZState :=
  if accessible then
    Except.ok { z with
      scriptName := some fileName,
      dataPath := some scriptDirectory,
      loadPath := rubyUniq (scriptDirectory :: z.loadPath),
      watchedFiles := watchPath :: z.watchedFiles }
  else Except.error (Fatal.exitCode 1)

/-- The default load-path entries from `config.h`
(`ZAJAL_LIBRARY_PATH`, `ZAJAL_RUBY_STDLIB_PATH`); their concrete text
is a build-time constant and never inspected. -/
def zajalLibraryPath : String := "<zajal-library-path>"

/-- See `zajalLibraryPath`. -/
def zajalRubyStdlibPath : String := "<zajal-ruby-stdlib-path>"

/-- `ZajalInterpreter::initialize()`, restricted to its load-path
logic: the colon-separated `ZAJAL_PATH` entries (already split, in
listed order) are each pushed — appended — onto `$:`; unless the build
flag `EMPTY_LOADPATH` is set, the two `config.h` defaults are then
appended; if `$:` is still empty the process exits fatally with status
2 (distinct from the status-1 inaccessible-file exit). -/
def zjInitialize (z : ZState) (envZajalPath : Option (List String))
    (emptyLoadpathFlag : Bool) : Except Fatal ZState :=
  let lp1 :=
    match envZajalPath with
    | none => z.loadPath
    | some entries => z.loadPath ++ entries
  let lp2 :=
    if emptyLoadpathFlag then lp1
    else lp1 ++ [zajalLibraryPath, zajalRubyStdlibPath]
  if lp2.length = 0 then Except.error (Fatal.exitCode 2)
  else Except.ok { z with loadPath := lp2 }

instance {ε α : Type} [DecidableEq ε] [DecidableEq α] : DecidableEq (Except ε α) :=
  fun a b =>
    match a, b with
    | Except.ok x, Except.ok y =>
      if h : x = y then Decidable.isTrue (by rw [h])
      else Decidable.isFalse (fun hh => h (Except.ok.inj hh))
    | Except.error x, Except.error y =>
      if h : x = y then Decidable.isTrue (by rw [h])
      else Decidable.isFalse (fun hh => h (Except.error.inj hh))
    | Except.ok _, Except.error _ => Decidable.isFalse (fun hh => Except.noConfusion hh)
    | Except.error _, Except.ok _ => Decidable.isFalse (fun hh => Except.noConfusion hh)

/-- A hook environment where every engine call succeeds and no hooks
are registered. -/
def quietHooks : Hooks where
  defaultsProcFails := false
  updatePrehooks := []
  updateProcFails := false
  updatePosthooks := []
  drawPrehooks := []
  drawProcFails := false
  drawPosthooks := []
  exitPrehooks := []
  exitProcFails := false
  exitPosthooks := []
  setupProcFails := false
  mousePressedProcFails := false
  mouseDownProcFails := false
  mouseUpProcFails := false
  mouseMovedProcFails := false
  mouseDraggedProcFails := false
  keyEventNewFails := false
  keyDownProcFails := false
  keyPressedProcFails := false
  keyUpProcFails := false
  processErrorFails := false
  evalErr := false

/-- A RUNNING interpreter sample. -/
def sampleRunning : ZState :=
  { initialZState 30 with state := InterpreterState.Running }

/-- An ERROR interpreter sample. -/
def sampleError : ZState :=
  { initialZState 30 with state := InterpreterState.Error }

/-- A file-system map on which every `stat` fails; the samples above
watch no files, so it is never consulted. -/
def fsNone : String → Option Int := fun _ => none

/-- C6: the pointer-button mapping sends 0/1/2 to the symbols
"left"/"middle"/"right" and reaches `rb_bug` (process abort, no return
value) on every other integer. -/
theorem C6_button_mapping :
    zj_button_to_symbol 0 = some "left" ∧
    zj_button_to_symbol 1 = some "middle" ∧
    zj_button_to_symbol 2 = some "right" ∧
    ∀ b : Int, b ≠ 0 → b ≠ 1 → b ≠ 2 → zj_button_to_symbol b = none := by
  refine ⟨rfl, rfl, rfl, ?_⟩
  intro b h0 h1 h2
  simp [zj_button_to_symbol, h0, h1, h2]

/-- Witness for C6 at button 5. -/
theorem C6_button_mapping_witness :
    zj_button_to_symbol 5 = none ∧ zj_button_to_symbol 0 = some "left" :=
  ⟨C6_button_mapping.2.2.2 5 (by decide) (by decide) (by decide),
   C6_button_mapping.1⟩

/-- C2: after the engine's evaluation call returns, `reloadScript`
sets the state to ERROR exactly when the engine reported an error and
to RUNNING otherwise; in particular a successful reload from ERROR
recovers to RUNNING with no separate clear-error step. -/
theorem C2_reload_sets_state_from_engine :
    ∀ (z : ZState) (forcedArg : Bool) (content : String) (evalErr : Bool),
      ((reloadScript z forcedArg content evalErr).1.state =
        if evalErr then InterpreterState.Error else InterpreterState.Running) ∧
      (z.state = InterpreterState.Error → evalErr = false →
        (reloadScript z forcedArg content evalErr).1.state = InterpreterState.Running) := by
  intro z forcedArg content evalErr
  refine ⟨rfl, ?_⟩
  intro _ he
  simp [reloadScript, he]

/-- Witness for C2: a successful reload from ERROR is RUNNING again. -/
theorem C2_reload_sets_state_from_engine_witness :
    (reloadScript sampleError false "x = 1" false).1.state = InterpreterState.Running :=
  (C2_reload_sets_state_from_engine sampleError false "x = 1" false).2 rfl rfl

/-- C3: a reload entered while in ERROR is forced regardless of the
caller's flag — the engine trace begins with the state-resetting empty
`live_load` before the new content is evaluated (both with the reset
flag set) — whereas a non-forced reload while RUNNING only grabs the
screen and evaluates the content without the preceding reset. -/
theorem C3_error_reload_is_forced :
    ∀ (z : ZState) (forcedArg : Bool) (content : String) (evalErr : Bool),
      (z.state = InterpreterState.Error →
        (reloadScript z forcedArg content evalErr).2 =
          [Ev.liveLoad "" true, Ev.liveLoad content true]) ∧
      (z.state = InterpreterState.Running → forcedArg = false →
        (reloadScript z forcedArg content evalErr).2 =
          [Ev.grabScreen, Ev.liveLoad content false]) := by
  intro z forcedArg content evalErr
  constructor
  · intro hz
    simp [reloadScript, hz]
  · intro hz hf
    simp [reloadScript, hz, hf]

/-- Witness for C3: from ERROR the trace resets then evaluates; from
RUNNING without the flag it evaluates with no reset. -/
theorem C3_error_reload_is_forced_witness :
    (reloadScript sampleError false "x = 1" false).2 =
      [Ev.liveLoad "" true, Ev.liveLoad "x = 1" true] ∧
    (reloadScript sampleRunning false "x = 1" false).2 =
      [Ev.grabScreen, Ev.liveLoad "x = 1" false] :=
  ⟨(C3_error_reload_is_forced sampleError false "x = 1" false).1 rfl,
   (C3_error_reload_is_forced sampleRunning false "x = 1" false).2 rfl rfl⟩

/-- In the draw posthook loop the state ends ERROR exactly when it was
ERROR entering the loop or some posthook reports failure. -/
lemma drawPosthookLoop_state (hooks : List Bool) (st : InterpreterState) (e : Bool) :
    (hooks.foldl (fun p f => (if f then InterpreterState.Error else p.1, f)) (st, e)).1 =
      if true ∈ hooks then InterpreterState.Error else st := by
  induction hooks generalizing st e with
  | nil => simp
  | cons a l ih =>
    cases a
    · simpa using ih st false
    · simpa using ih InterpreterState.Error true

/-- C1: while RUNNING, a failing update proc moves the state to ERROR
and none of the update posthooks are invoked that frame; the draw
branch instead always invokes every draw posthook in registration
order (the trace equation holds whether or not the draw proc failed),
a failing draw proc still ends the branch in ERROR, and a failing draw
posthook also leaves the state ERROR. -/
theorem C1_update_stops_draw_continues :
    ∀ (z : ZState) (h : Hooks),
      z.state = InterpreterState.Running →
      (h.updateProcFails = true →
        (zjUpdate z h).1.state = InterpreterState.Error ∧
        ∀ i, Ev.posthookCall Phase.update i ∉ (zjUpdate z h).2) ∧
      ((drawRunningBranch z h).2 =
          (List.range h.drawPrehooks.length).map (Ev.prehookCall Phase.draw)
            ++ [Ev.mainCall Phase.draw]
            ++ (List.range h.drawPosthooks.length).map (Ev.posthookCall Phase.draw)
            ++ (if z.mouseIsPressed then
                  [Ev.fakeMousePress z.lastMouseX z.lastMouseY z.lastMouseButton]
                else [])) ∧
      (h.drawProcFails = true →
        (drawRunningBranch z h).1.state = InterpreterState.Error) ∧
      (true ∈ h.drawPosthooks →
        (drawRunningBranch z h).1.state = InterpreterState.Error) := by
  intro z h hz
  refine ⟨?_, ?_, ?_, ?_⟩
  · intro hu
    constructor
    · simp [zjUpdate, hz, hu]
    · intro i
      simp [zjUpdate, hz, hu]
  · cases hp : z.mouseIsPressed <;>
      simp [drawRunningBranch, hp]
  · intro hd
    cases hp : z.mouseIsPressed <;>
      cases hmp : h.mousePressedProcFails <;>
        simp [drawRunningBranch, hp, hmp, hd, drawPosthookLoop_state]
  · intro hmem
    cases hp : z.mouseIsPressed <;>
      cases hmp : h.mousePressedProcFails <;>
        cases hd : h.drawProcFails <;>
          simp [drawRunningBranch, hp, hmp, hd, drawPosthookLoop_state, hmem]

/-- The hook environment used by the C1 witness: the update and draw
procs fail, and the second of two draw posthooks fails. -/
def hC1 : Hooks :=
  { quietHooks with
      updateProcFails := true
      drawProcFails := true
      drawPosthooks := [false, true] }

/-- Witness for C1: with a failing update proc no update posthook
runs, and with a failing draw proc both draw posthooks still run. -/
theorem C1_update_stops_draw_continues_witness :
    ((zjUpdate sampleRunning hC1).1.state = InterpreterState.Error ∧
      ∀ i, Ev.posthookCall Phase.update i ∉ (zjUpdate sampleRunning hC1).2) ∧
    (drawRunningBranch sampleRunning hC1).2 =
      [Ev.mainCall Phase.draw, Ev.posthookCall Phase.draw 0, Ev.posthookCall Phase.draw 1] ∧
    (drawRunningBranch sampleRunning hC1).1.state = InterpreterState.Error :=
  ⟨(C1_update_stops_draw_continues sampleRunning hC1 rfl).1 rfl,
   by
    have h2 := (C1_update_stops_draw_continues sampleRunning hC1 rfl).2.1
    simpa [hC1, quietHooks, sampleRunning, initialZState, List.range_succ] using h2,
   (C1_update_stops_draw_continues sampleRunning hC1 rfl).2.2.1 rfl⟩

/-- C10: the exit posthooks are run, all of them in registration
order, in every interpreter state; the exit prehooks and the user exit
proc run only while RUNNING. -/
theorem C10_exit_posthooks_in_every_state :
    ∀ (z : ZState) (h : Hooks),
      List.IsSuffix
        ((List.range h.exitPosthooks.length).map (Ev.posthookCall Phase.exitPhase))
        (zjExit z h).2 ∧
      (z.state ≠ InterpreterState.Running →
        (zjExit z h).1 = z ∧
        (zjExit z h).2 =
          (List.range h.exitPosthooks.length).map (Ev.posthookCall Phase.exitPhase)) ∧
      (z.state = InterpreterState.Running →
        (zjExit z h).2 =
          (List.range h.exitPrehooks.length).map (Ev.prehookCall Phase.exitPhase)
            ++ [Ev.mainCall Phase.exitPhase]
            ++ (List.range h.exitPosthooks.length).map (Ev.posthookCall Phase.exitPhase)) := by
  intro z h
  refine ⟨?_, ?_, ?_⟩
  · by_cases hz : z.state = InterpreterState.Running
    · exact ⟨(List.range h.exitPrehooks.length).map (Ev.prehookCall Phase.exitPhase)
          ++ [Ev.mainCall Phase.exitPhase], by simp [zjExit, hz]⟩
    · exact ⟨[], by simp [zjExit, hz]⟩
  · intro hz
    simp [zjExit, hz]
  · intro hz
    simp [zjExit, hz]

/-- Witness for C10: in the ERROR state the exit posthooks (two
registered) still all run and nothing else does. -/
theorem C10_exit_posthooks_in_every_state_witness :
    (zjExit sampleError { quietHooks with exitPosthooks := [false, true] }).2 =
      (List.range 2).map (Ev.posthookCall Phase.exitPhase) :=
  ((C10_exit_posthooks_in_every_state sampleError
      { quietHooks with exitPosthooks := [false, true] }).2.1 (by decide)).2

/-- C5: examining one watched file during a poll: a modification time
strictly newer than the shared last-seen timestamp advances the shared
timestamp to it and triggers a reload — preceded by an in-place
re-execution of the file exactly when it is not watch-list entry 0 —
while a modification time that is not strictly newer triggers
nothing. -/
theorem C5_watch_examination :
    ∀ (z : ZState) (idx : Nat) (path : String) (t : Int)
      (content : String) (evalErr : Bool),
      (t > z.scriptModifiedTime →
        ∀ r, watchStep z idx path (some t) content evalErr = Except.ok r →
          r.1.scriptModifiedTime = t ∧
          (idx > 0 →
            r.2 = Ev.inPlaceLoad path ::
              (reloadScript { z with scriptModifiedTime := t } false content evalErr).2) ∧
          (idx = 0 →
            r.2 = (reloadScript { z with scriptModifiedTime := t } false content evalErr).2)) ∧
      (¬ t > z.scriptModifiedTime →
        watchStep z idx path (some t) content evalErr = Except.ok (z, [])) := by
  intro z idx path t content evalErr
  constructor
  · intro ht r hr
    simp [watchStep, ht] at hr
    subst hr
    refine ⟨?_, ?_, ?_⟩
    · simp [reloadScript]
    · intro hidx
      simp [hidx]
    · intro hidx
      simp [hidx]
  · intro ht
    simp [watchStep, ht]

/-- Witness for C5: a newer dependency (index 1) is loaded in place
and then the primary script is reloaded; an unchanged file triggers
nothing. -/
theorem C5_watch_examination_witness :
    (∀ r, watchStep sampleRunning 1 "/s/dep.zj" (some 7) "x = 1" false = Except.ok r →
      r.1.scriptModifiedTime = 7 ∧
      r.2 = Ev.inPlaceLoad "/s/dep.zj" ::
        (reloadScript { sampleRunning with scriptModifiedTime := 7 } false "x = 1" false).2) ∧
    watchStep sampleRunning 0 "/s/sketch.zj" (some (-3)) "x = 1" false =
      Except.ok (sampleRunning, []) := by
  constructor
  · intro r hr
    have h := (C5_watch_examination sampleRunning 1 "/s/dep.zj" 7 "x = 1" false).1
      (by decide) r hr
    exact ⟨h.1, h.2.1 (by decide)⟩
  · exact (C5_watch_examination sampleRunning 0 "/s/sketch.zj" (-3) "x = 1" false).2 (by decide)

/-- `rubyUniqAux` produces a duplicate-free list none of whose
elements were already seen. -/
lemma rubyUniqAux_nodup :
    ∀ (l seen : List String),
      (rubyUniqAux seen l).Nodup ∧ ∀ a ∈ rubyUniqAux seen l, a ∉ seen := by
  intro l
  induction l with
  | nil => intro seen; simp [rubyUniqAux]
  | cons a l ih =>
    intro seen
    by_cases hs : a ∈ seen
    · have h := ih seen
      simpa [rubyUniqAux, hs] using h
    · have h := ih (a :: seen)
      simp only [rubyUniqAux, if_neg hs]
      refine ⟨List.nodup_cons.mpr ⟨?_, h.1⟩, ?_⟩
      · intro hmem
        exact (h.2 a hmem) (by simp)
      · intro b hb
        rcases List.mem_cons.mp hb with hb' | hb'
        · subst hb'; exact hs
        · intro hbseen
          exact (h.2 b hb') (by simp [hbseen])

/-- The Ruby-side `uniq!` on the load path yields a duplicate-free
list. -/
lemma rubyUniq_nodup (l : List String) : (rubyUniq l).Nodup :=
  (rubyUniqAux_nodup l []).1

/-- A state that already watches the primary script, as left by a
first `loadScript` of `/s/sketch.zj`. -/
def zLoadedOnce : ZState :=
  { initialZState 30 with watchedFiles := ["/s/sketch.zj"] }

/-- Counterexample to C7 as stated: registering a path that is already
on the watch list does not leave the list with one entry for it —
`loadScript` prepends unconditionally, so the path ends up twice. -/
theorem C7_counterexample :
    ¬ ((loadScript zLoadedOnce "sketch.zj" true "/s" "/s/sketch.zj").toOption.map
        ZState.watchedFiles = some ["/s/sketch.zj"]) := by
  decide

/-- C7 amended: watch-list registration is not idempotent — a
successful `loadScript` always prepends the resolved watch path at
index 0, so a re-registered path gains a second entry; the
deduplication on insert applies to the engine load path (`$:` after
`uniq!`), which is always duplicate-free. -/
theorem C7_amended_watch_registration_prepends :
    ∀ (z : ZState) (fileName scriptDirectory watchPath : String),
      ∀ r, loadScript z fileName true scriptDirectory watchPath = Except.ok r →
        r.watchedFiles = watchPath :: z.watchedFiles ∧
        r.loadPath = rubyUniq (scriptDirectory :: z.loadPath) ∧
        r.loadPath.Nodup := by
  intro z fileName scriptDirectory watchPath r hr
  simp [loadScript] at hr
  subst hr
  exact ⟨rfl, rfl, rubyUniq_nodup _⟩

/-- The state left by the duplicate registration of the C7
counterexample. -/
def zC7done : ZState :=
  { zLoadedOnce with
      scriptName := some "sketch.zj", dataPath := some "/s",
      loadPath := ["/s"],
      watchedFiles := ["/s/sketch.zj", "/s/sketch.zj"] }

/-- Witness for C7's amended statement: the duplicate registration in
the counterexample indeed yields two watch entries with the new one in
front, and a duplicate-free load path. -/
theorem C7_amended_watch_registration_prepends_witness :
    zC7done.watchedFiles = "/s/sketch.zj" :: zLoadedOnce.watchedFiles ∧
    zC7done.loadPath.Nodup :=
  ⟨(C7_amended_watch_registration_prepends zLoadedOnce "sketch.zj" "/s" "/s/sketch.zj"
      zC7done (by decide)).1,
   (C7_amended_watch_registration_prepends zLoadedOnce "sketch.zj" "/s" "/s/sketch.zj"
      zC7done (by decide)).2.2⟩

/-- A state whose load path holds one entry supplied on the command
line (`appendLoadPath`). -/
def zCliPath : ZState :=
  { initialZState 30 with loadPath := ["/cli"] }

/-- Counterexample to C8 as stated: the environment entries are not
prepended to the load path — with an existing entry `/cli` and
environment entry `/env`, the result does not start with `/env`. -/
theorem C8_counterexample :
    ¬ ((zjInitialize zCliPath (some ["/env"]) false).toOption.map ZState.loadPath =
        some (["/env"] ++ ["/cli"] ++ [zajalLibraryPath, zajalRubyStdlibPath])) := by
  decide

/-- C8 amended: the optional colon-separated search-path variable's
entries are appended to the load path in listed order (after any
pre-existing entries), then the two build defaults are appended unless
the `EMPTY_LOADPATH` build flag suppresses them; absence of the
variable is not fatal when default entries exist, but an empty
resulting load path exits fatally with status 2, distinct from the
status-1 inaccessible-file exit of `loadScript`. -/
theorem C8_amended_env_path_appended :
    (∀ (z : ZState) (entries : List String),
      zjInitialize z (some entries) false =
        Except.ok { z with
          loadPath := z.loadPath ++ entries ++ [zajalLibraryPath, zajalRubyStdlibPath] }) ∧
    (∀ z : ZState,
      zjInitialize z none false =
        Except.ok { z with
          loadPath := z.loadPath ++ [zajalLibraryPath, zajalRubyStdlibPath] }) ∧
    (∀ z : ZState, z.loadPath = [] →
      zjInitialize z none true = Except.error (Fatal.exitCode 2)) ∧
    (∀ (z : ZState) (fileName scriptDirectory watchPath : String),
      loadScript z fileName false scriptDirectory watchPath =
        Except.error (Fatal.exitCode 1)) ∧
    Fatal.exitCode 2 ≠ Fatal.exitCode 1 := by
  refine ⟨?_, ?_, ?_, ?_, by decide⟩
  · intro z entries
    simp [zjInitialize]
  · intro z
    simp [zjInitialize]
  · intro z hz
    simp [zjInitialize, hz]
  · intro z fileName scriptDirectory watchPath
    simp [loadScript]

/-- Witness for C8's amended statement: concrete append order, the
status-2 empty-load-path exit, and the status-1 file exit. -/
theorem C8_amended_env_path_appended_witness :
    zjInitialize zCliPath (some ["/env"]) false =
      Except.ok { zCliPath with
        loadPath := ["/cli", "/env", zajalLibraryPath, zajalRubyStdlibPath] } ∧
    zjInitialize (initialZState 30) none true = Except.error (Fatal.exitCode 2) := by
  constructor
  · have h := C8_amended_env_path_appended.1 zCliPath ["/env"]
    simpa [zCliPath, initialZState] using h
  · exact C8_amended_env_path_appended.2.2.1 (initialZState 30) rfl

/-- C9: the release handlers clear `keyIsPressed` / `mouseIsPressed`
only while RUNNING; so after a press while RUNNING, a script failure
entering ERROR, and a release arriving during ERROR, the mouse flag is
still set, and once a successful reload recovers to RUNNING the draw
phase synthetically re-invokes the mouse-pressed proc with the last
known position and button even though no button is held. -/
theorem C9_pressed_flag_survives_error :
    (∀ (z : ZState) (x y b : Int) (h : Hooks),
      z.state ≠ InterpreterState.Running →
      zjKeyReleased z h = z ∧ zjMouseReleased z x y b h = Except.ok z) ∧
    (∀ (z : ZState) (x y b : Int) (s content : String) (h hd : Hooks),
      z.state = InterpreterState.Running →
      zj_button_to_symbol b = some s →
      h.mouseDownProcFails = false →
      h.updateProcFails = true →
      ∀ z1, zjMousePressed z x y b h = Except.ok z1 →
      ∀ z3, zjMouseReleased (zjUpdate z1 h).1 x y b h = Except.ok z3 →
        z1.mouseIsPressed = true ∧
        (zjUpdate z1 h).1.state = InterpreterState.Error ∧
        z3.mouseIsPressed = true ∧
        (reloadScript z3 false content false).1.state = InterpreterState.Running ∧
        Ev.fakeMousePress x y s ∈
          (drawRunningBranch (reloadScript z3 false content false).1 hd).2) := by
  constructor
  · intro z x y b h hz
    constructor
    · simp [zjKeyReleased, hz]
    · simp [zjMouseReleased, hz]
  · intro z x y b s content h hd hz hb hmd hup z1 hz1 z3 hz3
    simp [zjMousePressed, hz, hb, hmd] at hz1
    subst hz1
    simp only [zjUpdate] at hz3 ⊢
    simp [hup] at hz3 ⊢
    simp [zjMouseReleased] at hz3
    subst hz3
    simp [drawRunningBranch, reloadScript]

/-- The hook environment of the C9 witness: only the update proc
fails. -/
def hC9 : Hooks := { quietHooks with updateProcFails := true }

/-- The C9 witness interpreter right after the mouse press at (4, 5)
with button 0. -/
def zC9pressed : ZState :=
  { sampleRunning with
      lastMouseX := 4, lastMouseY := 5, lastMouseButton := "left",
      mouseIsPressed := true }

/-- The C9 witness interpreter after the failing update. -/
def zC9errored : ZState := { zC9pressed with state := InterpreterState.Error }

/-- Witness for C9: the chain at a concrete RUNNING interpreter with
button 0 at (4, 5): the release during ERROR leaves the flag set and
the recovered draw re-invokes the mouse-pressed proc at (4, 5,
"left"). -/
theorem C9_pressed_flag_survives_error_witness :
    zjKeyReleased sampleError quietHooks = sampleError ∧
    zC9errored.mouseIsPressed = true ∧
    (reloadScript zC9errored false "x = 1" false).1.state = InterpreterState.Running ∧
    Ev.fakeMousePress 4 5 "left" ∈
      (drawRunningBranch (reloadScript zC9errored false "x = 1" false).1 quietHooks).2 := by
  refine ⟨((C9_pressed_flag_survives_error.1 sampleError 4 5 0 quietHooks) (by decide)).1, ?_⟩
  have h := C9_pressed_flag_survives_error.2 sampleRunning 4 5 0 "left" "x = 1"
    hC9 quietHooks rfl rfl rfl rfl zC9pressed (by decide) zC9errored (by decide)
  exact ⟨h.2.2.1, h.2.2.2.1, h.2.2.2.2⟩

/-- The draw-phase branches never touch the watch counter. -/
lemma drawRunningBranch_nextUpdate (z : ZState) (h : Hooks) :
    (drawRunningBranch z h).1.nextUpdate = z.nextUpdate := by
  simp [drawRunningBranch]

/-- `updateCurrentScript` always leaves the watch counter reset to the
configured interval. -/
lemma updateCurrentScript_nextUpdate (K : Int) (z : ZState) (fs : String → Option Int)
    (content : String) (evalErr : Bool) :
    ∀ r, updateCurrentScript K z fs content evalErr = Except.ok r →
      r.1.nextUpdate = K := by
  intro r hr
  unfold updateCurrentScript at hr
  rcases hw : watchLoop z z.watchedFiles 0 fs content evalErr with e | p <;>
    rw [hw] at hr
  · cases hr
  · cases p with
    | mk z1 evs =>
      injection hr with hr'
      subst hr'
      rfl

/-- The state switch of the draw phase never touches the watch
counter. -/
lemma drawSwitch_nextUpdate (z : ZState) (h : Hooks) :
    (drawSwitch z h).1.nextUpdate = z.nextUpdate := by
  unfold drawSwitch
  cases z.state <;> simp [drawErrorBranch, drawRunningBranch_nextUpdate]

/-- One draw call's effect on the watch counter: reset to `K` when the
counter was zero entering the call (the poll fires), otherwise a
decrement by one. -/
lemma zjDraw_nextUpdate (K : Int) (z : ZState) (h : Hooks) (fs : String → Option Int)
    (content : String) :
    ∀ r, zjDraw K z h fs content = Except.ok r →
      r.1.nextUpdate = if z.nextUpdate = 0 then K else z.nextUpdate - 1 := by
  intro r hr
  simp only [zjDraw] at hr
  rw [drawSwitch_nextUpdate] at hr
  by_cases hz : z.nextUpdate = 0
  · rw [if_pos hz] at hr
    rw [if_pos hz]
    rcases hu : updateCurrentScript K
        { (drawSwitch z h).1 with nextUpdate := z.nextUpdate - 1 } fs content h.evalErr
      with e | p
    · rw [hu] at hr
      cases hr
    · rw [hu] at hr
      cases p with
      | mk z2 evs2 =>
        injection hr with hr'
        subst hr'
        exact updateCurrentScript_nextUpdate K _ fs content h.evalErr (z2, evs2) hu
  · rw [if_neg hz] at hr
    rw [if_neg hz]
    injection hr with hr'
    subst hr'
    simp [drawSwitch_nextUpdate]

/-- Successor step for division and remainder by `K + 1`. -/
lemma mod_div_succ (K n : Nat) :
    (n + 1) % (K + 1) = (if n % (K + 1) = K then 0 else n % (K + 1) + 1) ∧
    (n + 1) / (K + 1) = (if n % (K + 1) = K then n / (K + 1) + 1 else n / (K + 1)) := by
  have hpos : 0 < K + 1 := Nat.succ_pos K
  have hdm := Nat.div_add_mod n (K + 1)
  have hlt : n % (K + 1) < K + 1 := Nat.mod_lt _ hpos
  by_cases hK : n % (K + 1) = K
  · have h1 : n + 1 = (K + 1) * (n / (K + 1) + 1) := by
      conv_lhs => rw [← hdm]
      rw [hK, Nat.mul_succ, Nat.add_assoc]
    constructor
    · rw [if_pos hK, h1, Nat.mul_mod_right]
    · rw [if_pos hK, h1, Nat.mul_div_cancel_left _ hpos]
  · have hlt2 : n % (K + 1) + 1 < K + 1 := by omega
    have h1 : n + 1 = (K + 1) * (n / (K + 1)) + (n % (K + 1) + 1) := by
      conv_lhs => rw [← hdm]
      rw [Nat.add_assoc]
    constructor
    · rw [if_neg hK, h1, Nat.mul_add_mod, Nat.mod_eq_of_lt hlt2]
    · rw [if_neg hK, h1, Nat.mul_add_div hpos, Nat.div_eq_of_lt hlt2, Nat.add_zero]

/-- C4 amended: with the watch-check counter starting at the
configured interval `K`, the poll fires exactly once every `K + 1`
draw calls (not every `K`): after `n` draw calls — whatever the
interpreter state and however the hook calls fail — the poll has fired
`n / (K + 1)` times and the counter reads `K - n % (K + 1)`, so it
decrements by one per draw call down to zero, is reset to `K` by the
firing call, and never goes negative. -/
theorem C4_watch_poll_fires_every_K_plus_one_draws :
    ∀ (K : Nat) (z : ZState) (h : Hooks) (fs : String → Option Int)
      (content : String) (n : Nat),
      z.nextUpdate = (K : Int) →
      ∀ r, drawSeq (K : Int) z h fs content n = Except.ok r →
        r.2 = n / (K + 1) ∧
        r.1.nextUpdate = (K : Int) - ((n % (K + 1) : Nat) : Int) ∧
        0 ≤ r.1.nextUpdate ∧ r.1.nextUpdate ≤ (K : Int) := by
  intro K z h fs content n hz
  induction n with
  | zero =>
    intro r hr
    injection hr with hr'
    subst hr'
    refine ⟨by simp, by simp [hz], by simp [hz], by simp [hz]⟩
  | succ n ih =>
    intro r hr
    simp only [drawSeq] at hr
    rcases hd : drawSeq (K : Int) z h fs content n with e | p
    · rw [hd] at hr; cases hr
    · rw [hd] at hr
      cases p with
      | mk z1 c =>
        simp only [] at hr
        rcases hz2 : zjDraw (K : Int) z1 h fs content with e | q
        · rw [hz2] at hr; cases hr
        · rw [hz2] at hr
          cases q with
          | mk z2 evs =>
            injection hr with hr'
            subst hr'
            obtain ⟨ihc, ihn, ihlb, ihub⟩ := ih (z1, c) hd
            have hnu := zjDraw_nextUpdate (K : Int) z1 h fs content (z2, evs) hz2
            have hlt : n % (K + 1) < K + 1 := Nat.mod_lt _ (Nat.succ_pos K)
            obtain ⟨hm, hq⟩ := mod_div_succ K n
            simp only at ihc ihn hnu ⊢
            generalize hR1 : (n + 1) % (K + 1) = R1 at hm ⊢
            generalize hQ1 : (n + 1) / (K + 1) = Q1 at hq ⊢
            generalize hR : n % (K + 1) = R at ihn hlt hm hq
            generalize hQ : n / (K + 1) = Q at ihc hq
            by_cases hRK : R = K
            · rw [if_pos hRK] at hm hq
              have hz1z : z1.nextUpdate = 0 := by rw [ihn, hRK]; simp
              refine ⟨by simp [hz1z, ihc, hq], by simp [hnu, hz1z, hm],
                by simp [hnu, hz1z], by simp [hnu, hz1z]⟩
            · rw [if_neg hRK] at hm hq
              have hRltK : R < K := by omega
              have hz1ne : z1.nextUpdate ≠ 0 := by rw [ihn]; omega
              refine ⟨by simp [hz1ne, ihc, hq], ?_, ?_, ?_⟩
              · rw [hnu, if_neg hz1ne, ihn, hm]
                push_cast
                ring
              · rw [hnu, if_neg hz1ne, ihn]
                omega
              · rw [hnu, if_neg hz1ne, ihn]
                omega

/-- Counterexample to C4 as stated: with interval K = 1 and the
counter freshly initialised to K, the first K = 1 draw calls contain
no poll firing at all (the poll fires once every K + 1 = 2 draws), so
the poll does not fire exactly once every K draw calls. -/
theorem C4_counterexample :
    ¬ ((drawSeq 1 (initialZState 1) quietHooks fsNone "" 1).toOption.map Prod.snd =
        some 1) := by
  decide

/-- The end state of the C4 witness run: 7 draw calls at K = 2 leave
the counter at 1 with 2 poll firings. -/
def rC4 : ZState × Nat := ({ initialZState 2 with nextUpdate := 1 }, 2)

/-- Witness for C4's amended statement at K = 2, n = 7: the poll fired
7 / 3 = 2 times and the counter reads 2 - 7 % 3 = 1. -/
theorem C4_watch_poll_fires_every_K_plus_one_draws_witness :
    rC4.2 = 7 / (2 + 1) ∧
    rC4.1.nextUpdate = ((2 : Nat) : Int) - ((7 % (2 + 1) : Nat) : Int) :=
  ⟨(C4_watch_poll_fires_every_K_plus_one_draws 2 (initialZState 2) quietHooks fsNone ""
      7 (by decide) rC4 (by decide)).1,
   (C4_watch_poll_fires_every_K_plus_one_draws 2 (initialZState 2) quietHooks fsNone ""
      7 (by decide) rC4 (by decide)).2.1⟩
